import Mathlib

/-!
Shallow embedding of the JobWatch Leipzig pipeline (`src/app.py`) and proofs
of the specification claims about it.

Modelling conventions:
* Python strings are Lean `String`s (sequences of Unicode code points).
* `str.lower()` is modelled by a character-wise map that lowers the ASCII
  letters and the German umlauts Ä/Ö/Ü (the only cased characters occurring
  in the program's data); all other characters are left unchanged.
* `str.strip()` is modelled by dropping `Char.isWhitespace` characters from
  both ends.
* Python slicing `s[:n]` is modelled on the underlying character list.
* Raw API records (JSON objects of unknown shape) are modelled by a fixed
  record type `Item` whose fields are `Option`-valued: `none` models an
  absent key, `some s` a present string value.  Python truthiness of a
  string field is "present and non-empty".
-/

namespace Jobwatch

/-- Character-wise lower-casing, embedding Python `str.lower()` for the
character repertoire used by the program (ASCII plus Ä/Ö/Ü). -/
def lowerChar : Char → Char
  | 'A' => 'a' | 'B' => 'b' | 'C' => 'c' | 'D' => 'd' | 'E' => 'e' | 'F' => 'f'
  | 'G' => 'g' | 'H' => 'h' | 'I' => 'i' | 'J' => 'j' | 'K' => 'k' | 'L' => 'l'
  | 'M' => 'm' | 'N' => 'n' | 'O' => 'o' | 'P' => 'p' | 'Q' => 'q' | 'R' => 'r'
  | 'S' => 's' | 'T' => 't' | 'U' => 'u' | 'V' => 'v' | 'W' => 'w' | 'X' => 'x'
  | 'Y' => 'y' | 'Z' => 'z' | 'Ä' => 'ä' | 'Ö' => 'ö' | 'Ü' => 'ü'
  | c => c

/-- Embedding of Python `str.lower()`. -/
def pyLower (s : String) : String := ⟨s.data.map lowerChar⟩

/-- Whitespace-stripping on a character list (both ends). -/
def stripCL (l : List Char) : List Char :=
  ((l.dropWhile Char.isWhitespace).reverse.dropWhile Char.isWhitespace).reverse

/-- Embedding of Python `str.strip()`. -/
def pyStrip (s : String) : String := ⟨stripCL s.data⟩

/-- Embedding of Python slicing `s[:n]`. -/
def pySlice (s : String) (n : Nat) : String := ⟨s.data.take n⟩

/-- Does `n` occur at the head of `l`?  (List-of-chars helper for Python
substring containment.) -/
def startsWithCL : List Char → List Char → Bool
  | [], _ => true
  | _ :: _, [] => false
  | a :: as, b :: bs => a == b && startsWithCL as bs

/-- Does `n` occur somewhere inside `l`? -/
def hasSubCL (n : List Char) : List Char → Bool
  | [] => startsWithCL n []
  | b :: bs => startsWithCL n (b :: bs) || hasSubCL n bs

/-- Embedding of Python substring containment `needle in hay`. -/
def strIn (needle hay : String) : Bool := hasSubCL needle.data hay.data

/-- Embedding of the Python idiom `a or b` on an optional string field:
yields `b` when the field is absent (`None`) or empty (falsy). -/
def orStr (a : Option String) (b : String) : String :=
  match a with
  | some s => if s = "" then b else s
  | none => b

/-- A geographic coordinate pair as found in a raw record; each component is
present only when the corresponding JSON value exists and is numeric. -/
structure Coords where
  lat : Option ℝ
  lon : Option ℝ

/-- The `arbeitsort`/`ort`/`wo` value of a raw record: either a flat string
or a structured object with `ort`/`region`/`land`/`koordinaten` entries. -/
inductive LocVal where
  | flat (s : String)
  | struct (ort region land : Option String) (koordinaten : Option Coords)

/-- A raw job record: the fields of the provider JSON object that the
program reads, plus the `_bucket`/`arbeitszeit`/`_key` annotations the
pipeline itself attaches.  `none` models an absent key. -/
structure Item where
  refnr : Option String := none
  refNr : Option String := none
  hashId : Option String := none
  hashID : Option String := none
  titel : Option String := none
  beruf : Option String := none
  title : Option String := none
  arbeitgeber : Option String := none
  arbeitgeberName : Option String := none
  unternehmen : Option String := none
  arbeitsort : Option LocVal := none
  ort : Option LocVal := none
  wo : Option LocVal := none
  koordinaten : Option Coords := none
  kurzbeschreibung : Option String := none
  bucket : Option String := none
  arbeitszeit : Option String := none
  keyAnn : Option String := none

/-- Embedding of `item_id_raw` (src/app.py:187-189): first truthy of the four
reference-number field variants, stringified and stripped. -/
def item_id_raw (it : Item) : String :=
  pyStrip (orStr it.refnr (orStr it.refNr (orStr it.hashId (orStr it.hashID ""))))

/-- Embedding of `item_title` (src/app.py:192-194). -/
def item_title (it : Item) : String :=
  orStr it.titel (orStr it.beruf (orStr it.title "Ohne Titel"))

/-- Embedding of `item_company` (src/app.py:197-199). -/
def item_company (it : Item) : String :=
  orStr it.arbeitgeber (orStr it.arbeitgeberName (orStr it.unternehmen ""))

/-- Python truthiness of a location value: `None`, the empty string and the
empty object are falsy.  (A structured value is modelled as a non-empty JSON
object, hence truthy.) -/
def locTruthy : Option LocVal → Bool
  | none => false
  | some (.flat s) => s ≠ ""
  | some (.struct _ _ _ _) => true

/-- The `loc = it.get("arbeitsort") or it.get("ort") or it.get("wo")`
chain of `pretty_location`. -/
def locChain (it : Item) : Option LocVal :=
  if locTruthy it.arbeitsort then it.arbeitsort
  else if locTruthy it.ort then it.ort
  else it.wo

/-- Embedding of `pretty_location` (src/app.py:202-217): flat strings verbatim,
structured locations as the comma-joined non-empty parts (or a dash). -/
def pretty_location (it : Item) : String :=
  match locChain it with
  | some (.flat s) => s
  | some (.struct o r l _) =>
    let parts := [pyStrip (o.getD ""), pyStrip (r.getD ""), pyStrip (l.getD "")]
    let parts := parts.filter (fun p => p ≠ "")
    if parts = [] then "—" else String.intercalate ", " parts
  | none => "—"

/-! ### SHA-1 (for the `hx:` content-hash fallback of `item_key`)

A direct implementation of SHA-1 over `Nat`, with 32-bit arithmetic done
modulo `2 ^ 32`, mirroring `hashlib.sha1(...).hexdigest()`. -/

/-- Truncation to 32 bits. -/
def m32 (n : Nat) : Nat := n % 2 ^ 32

/-- Bitwise complement on 32 bits. -/
def not32 (n : Nat) : Nat := 2 ^ 32 - 1 - m32 n

/-- Left rotation on 32 bits. -/
def rotl32 (s n : Nat) : Nat :=
  m32 ((n <<< s) % 2 ^ 32 + (m32 n) >>> (32 - s))

/-- Big-endian byte decomposition (`w` bytes) of a natural number. -/
def beBytes : Nat → Nat → List Nat
  | 0, _ => []
  | w + 1, n => beBytes w (n / 256) ++ [n % 256]

/-- Split a list into chunks of 64 elements. -/
def chunks64 : List Nat → List (List Nat)
  | [] => []
  | b :: rest => (b :: rest).take 64 :: chunks64 (rest.drop 63)
  termination_by l => l.length
  decreasing_by simp [List.length_drop]; omega

/-- Assemble four big-endian bytes into a 32-bit word. -/
def word32 (bs : List Nat) : Nat := bs.foldl (fun acc b => acc * 256 + b) 0

/-- The sixteen 32-bit big-endian words of a 64-byte chunk. -/
def chunkWords (c : List Nat) : List Nat :=
  (List.range 16).map (fun i => word32 ((c.drop (4 * i)).take 4))

/-- Extend sixteen schedule words to eighty. -/
def extendWords (ws : List Nat) : Nat → List Nat
  | 0 => ws
  | k + 1 =>
    let ws := extendWords ws k
    let i := ws.length
    ws ++ [rotl32 1 (((ws.getD (i - 3) 0).xor ((ws.getD (i - 8) 0).xor
      ((ws.getD (i - 14) 0).xor (ws.getD (i - 16) 0)))))]

/-- The round function and constant of SHA-1 round `i`. -/
def sha1f (i b c d : Nat) : Nat × Nat :=
  if i < 20 then ((b.land c).lor ((not32 b).land d), 0x5A827999)
  else if i < 40 then (b.xor (c.xor d), 0x6ED9EBA1)
  else if i < 60 then ((b.land c).lor ((b.land d).lor (c.land d)), 0x8F1BBCDC)
  else (b.xor (c.xor d), 0xCA62C1D6)

/-- The eighty rounds of one SHA-1 chunk. -/
def sha1Rounds (ws : List Nat) : Nat → Nat × Nat × Nat × Nat × Nat →
    Nat × Nat × Nat × Nat × Nat
  | 0, st => st
  | k + 1, st =>
    let (a, b, c, d, e) := sha1Rounds ws k st
    let (f, kc) := sha1f k b c d
    (m32 (rotl32 5 a + f + e + kc + ws.getD k 0), a, rotl32 30 b, c, d)

/-- Process one 64-byte chunk, updating the five state words. -/
def sha1Chunk (h : Nat × Nat × Nat × Nat × Nat) (c : List Nat) :
    Nat × Nat × Nat × Nat × Nat :=
  let ws := extendWords (chunkWords c) 64
  let (h0, h1, h2, h3, h4) := h
  let (a, b, cc, d, e) := sha1Rounds ws 80 (h0, h1, h2, h3, h4)
  (m32 (h0 + a), m32 (h1 + b), m32 (h2 + cc), m32 (h3 + d), m32 (h4 + e))

/-- SHA-1 padding of a byte string. -/
def sha1Pad (msg : List Nat) : List Nat :=
  msg ++ [0x80] ++ List.replicate ((64 - (msg.length + 9) % 64) % 64) 0 ++
    beBytes 8 (8 * msg.length)

/-- The twenty digest bytes of SHA-1. -/
def sha1Bytes (msg : List Nat) : List Nat :=
  let init : Nat × Nat × Nat × Nat × Nat :=
    (0x67452301, 0xEFCDAB89, 0x98BADCFE, 0x10325476, 0xC3D2E1F0)
  let (h0, h1, h2, h3, h4) := (chunks64 (sha1Pad msg)).foldl sha1Chunk init
  beBytes 4 h0 ++ beBytes 4 h1 ++ beBytes 4 h2 ++ beBytes 4 h3 ++ beBytes 4 h4

/-- A lowercase hexadecimal digit. -/
def hexDigit (n : Nat) : Char :=
  if n < 10 then Char.ofNat (48 + n) else Char.ofNat (87 + n)

/-- Lowercase hexadecimal rendering of a byte string. -/
def hexOfBytes (bs : List Nat) : String :=
  ⟨bs.flatMap (fun b => [hexDigit (b / 16), hexDigit (b % 16)])⟩

/-- UTF-8 bytes of a string (Python `s.encode("utf-8")`). -/
def strBytes (s : String) : List Nat := s.toUTF8.toList.map UInt8.toNat

/-- Embedding of `hashlib.sha1(s.encode("utf-8")).hexdigest()`. -/
def sha1Hex (s : String) : String := hexOfBytes (sha1Bytes (strBytes s))

/-- Embedding of `item_key` (src/app.py:220-226): `"ba:" + rid` for a non-empty stripped
reference id, else `"hx:" +` the first sixteen hex characters of the SHA-1
of the stripped, lowercased `title|company|location` string. -/
def item_key (it : Item) : String :=
  let rid := item_id_raw it
  if rid ≠ "" then "ba:" ++ rid
  else
    "hx:" ++ pySlice (sha1Hex (pyLower (pyStrip
      (item_title it ++ "|" ++ item_company it ++ "|" ++ pretty_location it)))) 16

/-! ### Target organisations and company matching -/

/-- One entry of the static `TARGET_ORGS` directory. -/
structure Org where
  name : String
  matchTerms : List String
  url : String
  priority : Option String := none
deriving DecidableEq

/-- The static `TARGET_ORGS` directory (src/app.py:102-163); list order is
significant (first-match-wins). -/
def TARGET_ORGS : List Org := [
  ⟨"InfraLeuna", ["infraleuna"], "https://www.infraleuna.de/career", none⟩,
  ⟨"TotalEnergies / Raffinerie Leuna", ["totalenergies", "raffinerie", "leuna"], "https://jobs.totalenergies.com/de_DE/careers/Home", none⟩,
  ⟨"Dow (Schkopau/Böhlen)", ["dow", "olefinverbund"], "https://de.dow.com/de-de/karriere.html", none⟩,
  ⟨"Trinseo (Schkopau)", ["trinseo"], "https://www.trinseo.com/careers", none⟩,
  ⟨"DOMO / Caproleuna", ["domo", "caproleuna"], "https://www.domochemicals.com/de/stellenangebote", none⟩,
  ⟨"UPM Biochemicals (Leuna)", ["upm"], "https://www.upmbiochemicals.com/de/karriere/", none⟩,
  ⟨"ADDINOL (Leuna)", ["addinol"], "https://addinol.de/unternehmen/karriere/", none⟩,
  ⟨"Arkema", ["arkema"], "https://www.arkema.com/germany/de/careers/", none⟩,
  ⟨"Eastman", ["eastman"], "https://www.eastman.com/en/careers", none⟩,
  ⟨"Innospec", ["innospec"], "https://www.inno-spec.de/karriere/", none⟩,
  ⟨"Shell (Catalysts/Leuna)", ["shell", "catalysts"], "https://www.shell.de/ueber-uns/karriere.html", none⟩,
  ⟨"Linde", ["linde"], "https://de.lindecareers.com/", none⟩,
  ⟨"Air Liquide", ["air liquide"], "https://de.airliquide.com/karriere", none⟩,
  ⟨"BASF", ["basf"], "https://www.basf.com/global/de/careers", none⟩,
  ⟨"Wacker Chemie", ["wacker"], "https://www.wacker.com/cms/de-de/careers/overview.html", none⟩,
  ⟨"Verbio (Leipzig)", ["verbio"], "https://www.verbio.de/karriere/", none⟩,
  ⟨"VNG (Leipzig)", ["vng"], "https://karriere.vng.de/", none⟩,
  ⟨"Siemens Energy", ["siemens energy"], "https://jobs.siemens-energy.com/de_DE/jobs/Jobs", none⟩,
  ⟨"Siemens (allgemein)", ["siemens"], "https://www.siemens.com/de/de/unternehmen/jobs.html", none⟩,
  ⟨"BMW Werk Leipzig", ["bmw"], "https://www.bmwgroup.jobs/de/de/standorte/werke-in-deutschland/werk-leipzig.html", none⟩,
  ⟨"Porsche Leipzig", ["porsche"], "https://www.porsche-leipzig.com/jobs-karriere/", none⟩,
  ⟨"DHL Hub Leipzig", ["dhl", "deutsche post", "hub leipzig"], "https://www.dhl.com/de-de/microsites/express/hubs/hub-leipzig/jobs.html", none⟩,
  ⟨"Mitteldeutsche Flughafen AG (LEJ)", ["mitteldeutsche flughafen", "flughafen leipzig", "leipzig/halle", "leipzig-halle"], "https://www.mdf-ag.com/karriere/alle-jobs/flughafen-leipzig-halle", none⟩,
  ⟨"Stadtwerke Leipzig / Leipziger Gruppe", ["stadtwerke leipzig", "leipziger gruppe", "l-gruppe", "l.de"], "https://www.l.de/karriere/stellenangebote/", none⟩,
  ⟨"enviaM-Gruppe", ["enviam", "envia", "mitgas"], "https://jobs.enviam-gruppe.de/", none⟩,
  ⟨"GBA Group", ["gba"], "https://www.gba-group.com/karriere/jobs/", none⟩,
  ⟨"Eurofins", ["eurofins"], "https://careers.eurofins.com/de", none⟩,
  ⟨"SGS", ["sgs"], "https://www.sgs.com/de-de/unternehmen/karriere-bei-sgs/stellenangebote", none⟩,
  ⟨"DEKRA", ["dekra"], "https://www.dekra.de/de/karriere/ueberblick/", none⟩,
  ⟨"UFZ Helmholtz (Leipzig)", ["ufz", "helmholtz-zentrum", "umweltforschung"], "https://www.ufz.de/index.php?de=34275", none⟩,
  ⟨"DBFZ Leipzig", ["dbfz", "deutsches biomasseforschungszentrum"], "https://www.dbfz.de/karriere/stellenausschreibungen", some "high"⟩,
  ⟨"Fraunhofer IZI (Leipzig)", ["fraunhofer izi", "izi"], "https://www.izi.fraunhofer.de/de/jobs-karriere.html", none⟩,
  ⟨"Fraunhofer IMWS (Halle)", ["fraunhofer imws", "imws", "mikrostruktur", "mikrostruktur von werkstoffen", "halle (saale)"], "https://www.imws.fraunhofer.de/de/schnelleinstieg-fuer-bewerber/jobs-am-imws.html", some "high"⟩,
  ⟨"Fraunhofer (Jobportal)", ["fraunhofer"], "https://www.fraunhofer.de/de/jobs-und-karriere.html", none⟩,
  ⟨"Leibniz-Institut für Oberflächenmodifizierung (IOM)", ["leibniz iom", "iom leipzig", "oberflächenmodifizierung", "iom"], "https://www.iom-leipzig.de/de/karriere/", some "high"⟩,
  ⟨"Leibniz IPB (Halle)", ["ipb", "pflanzenbiochemie", "leibniz"], "https://www.ipb-halle.de/karriere/stellenangebote/", none⟩,
  ⟨"Max-Planck-Gesellschaft (Stellenbörse)", ["max-planck", "max planck", "mpg"], "https://www.mpg.de/stellenboerse", none⟩,
  ⟨"Universität Leipzig (Stellen)", ["universität leipzig", "uni leipzig"], "https://www.uni-leipzig.de/universitaet/arbeiten-an-der-universitaet-leipzig/stellenausschreibungen", none⟩,
  ⟨"MLU Halle (Stellen)", ["martin-luther-universität", "universität halle", "uni halle", "mlu"], "https://personal.verwaltung.uni-halle.de/jobs/", none⟩,
  ⟨"Hochschule Merseburg", ["hochschule merseburg", "hs merseburg"], "https://www.hs-merseburg.de/hochschule/information/stellenausschreibungen/", none⟩,
  ⟨"HTWK Leipzig (Stellen)", ["htwk"], "https://www.htwk-leipzig.de/hochschule/stellenangebote", none⟩,
  ⟨"MFPA Leipzig GmbH", ["mfpa leipzig", "mfpa", "prüfanstalt", "materialforschungs"], "https://www.mfpa-leipzig.de/", some "high"⟩,
  ⟨"MFPA Leipzig – Wärmeleitfähigkeit (Service)", ["mfpa leipzig", "mfpa"], "https://www.mfpa-leipzig.de/service/pruefung-der-waermeleitfaehigkeit-von-daemmstoffen/", none⟩,
  ⟨"Universität Leipzig – Technische Chemie (Equipment)", ["institut für technische chemie", "technical chemistry", "universität leipzig", "uni leipzig"], "https://www.chemie.uni-leipzig.de/en/institute-of-chemical-technology/technical-equipment", none⟩,
  ⟨"MLU Halle – Thermal analysis (Geo/MinGeo)", ["geo.uni-halle", "thermalanalysis", "mlu", "uni halle", "martin-luther"], "https://geo.uni-halle.de/en/mingeochem/laboratories/thermalanalysis/", none⟩,
  ⟨"HTWK Leipzig – MNZ Werkstoffprüfung", ["mnz", "htwk"], "https://mnz.htwk-leipzig.de/forschung/analytisches-zentrum/analysemethoden/werkstoffpruefung/", none⟩,
  ⟨"TZO Leipzig – Labor Umwelterprobung & Werkstoffprüfung", ["tzo leipzig", "luw"], "https://tzoleipzig.de/labor-fuer-umwelterprobung/", none⟩]

/-- The first-match-wins scan of `match_target_org`'s `for` loop. -/
def find_org : List Org → String → Option Org
  | [], _ => none
  | o :: os, c => if o.matchTerms.any (fun m => strIn m c) then some o
                  else find_org os c

/-- Embedding of `match_target_org` (src/app.py:429-436), generalised over the directory
scanned by its loop. -/
def match_target_org_in (orgs : List Org) (company : String) : Option Org :=
  let c := pyLower company
  if pyStrip c = "" then none else find_org orgs c

/-- Embedding of `match_target_org` (src/app.py:429-436) against the static directory. -/
def match_target_org (company : String) : Option Org :=
  match_target_org_in TARGET_ORGS company

/-! ### Keywords and scoring -/

/-- Embedding of `parse_keywords` (src/app.py:409-413): split into lines, split each
line on commas, strip each part, keep the non-empty ones. -/
def parse_keywords (text : String) : List String :=
  (((text.splitOn "\n").flatMap (fun line => (line.splitOn ",").map pyStrip)).filter
    (fun x => x ≠ ""))

/-- Embedding of `is_homeoffice_item` (src/app.py:687-692). -/
def is_homeoffice_item (it : Item) : Bool :=
  strIn "homeoffice" (pyLower (it.bucket.getD "")) ||
    pyLower (it.arbeitszeit.getD "") == "ho"

/-- The lower-cased haystack built by `score_breakdown` (src/app.py:696-703)
from title, short description, company and location. -/
def haystack (it : Item) : String :=
  pyLower (item_title it ++ " " ++ it.kurzbeschreibung.getD "" ++ " " ++
    item_company it ++ " " ++ pretty_location it)

/-- One keyword loop of `score_breakdown`: for every non-empty term
contained in `text`, add `delta` points and record `pre ++ term`. -/
def passKw (pre : String) (delta : Int) (text : String) :
    List String → Int × List String
  | [] => (0, [])
  | k :: ks =>
    let rest := passKw pre delta text ks
    if k ≠ "" && strIn k text then (delta + rest.1, (pre ++ k) :: rest.2)
    else rest

/-- Embedding of `score_breakdown` (src/app.py:695-729), with the three session keyword
lists threaded as parameters. -/
def score_breakdown (focus lead neg : List String) (it : Item)
    (ho_bonus_val : Int) : Int × List String :=
  let text := haystack it
  let f := passKw "+10 " 10 text focus
  let l := passKw "+6 " 6 text lead
  let n := passKw "−12 " (-12) text neg
  let ho : Int × List String :=
    if is_homeoffice_item it && decide (ho_bonus_val > 0) then
      (ho_bonus_val, ["+" ++ toString ho_bonus_val ++ " homeoffice"])
    else (0, [])
  let score := f.1 + l.1 + n.1 + ho.1
  let parts := f.2 ++ l.2 ++ n.2 ++ ho.2
  (score, if parts = [] then ["(keine Keyword-Treffer)"] else parts)

/-- Embedding of `relevance_score` (src/app.py:732-734). -/
def relevance_score (focus lead neg : List String) (it : Item)
    (ho_bonus_val : Int) : Int :=
  (score_breakdown focus lead neg it ho_bonus_val).1

/-- The lower-cased title + short-description text used by the strict
leadership classifier. -/
def strictText (it : Item) : String :=
  pyLower (item_title it ++ " " ++ it.kurzbeschreibung.getD "")

/-- The enumerated term list of `looks_leadership_strict`. -/
def strict_terms : List String :=
  ["laborleiter", "teamleiter", "gruppenleiter", "abteilungsleiter",
   "bereichsleiter", " head of ", "director"]

/-- Embedding of `looks_leadership_strict` (src/app.py:676-684): space-delimited match of
the bare word "leiter" against the padded text, or plain substring match of
one of the enumerated terms. -/
def looks_leadership_strict (it : Item) : Bool :=
  let text := strictText it
  strIn " leiter " (" " ++ text ++ " ") || strict_terms.any (fun t => strIn t text)

/-- Whole-word occurrence of `t` in `text` (word boundaries = spaces or the
ends of the text). -/
def wholeWordIn (t text : String) : Bool :=
  strIn (" " ++ t ++ " ") (" " ++ text ++ " ")

/-! ### Dedup and snapshot diff -/

/-- The `it["_key"] = k` annotation performed by the dedup loop. -/
def withKey (it : Item) (k : String) : Item := { it with keyAnn := some k }

/-- The dedup loop building `items_now` (src/app.py:808-815), with the
`seen` set threaded explicitly. -/
def dedup_go (seen : List String) : List Item → List Item
  | [] => []
  | it :: rest =>
    let k := item_key it
    if k ∈ seen then dedup_go seen rest
    else withKey it k :: dedup_go (k :: seen) rest

/-- The dedup step: keep the first record for each identity key, annotating
it with its key. -/
def dedup (l : List Item) : List Item := dedup_go [] l

/-- Key under which a record enters the snapshot-diff sets:
`x.get("_key") or item_key(x)` (src/app.py:825-826). -/
def keyOf (x : Item) : String :=
  match x.keyAnn with
  | some s => if s = "" then item_key x else s
  | none => item_key x

/-- The identity-key set of a list of records. -/
def keySet (l : List Item) : Finset String := (l.map keyOf).toFinset

/-- Embedding of `new_keys = now_keys - prev_keys` (src/app.py:824-827). -/
def new_keys (now prev : List Item) : Finset String := keySet now \ keySet prev

/-! ### Geographic distance

`haversine_km` works on Python floats; it is embedded as the corresponding
real-valued function.  `math.atan2 y x` is `Complex.arg ⟨x, y⟩` (both have
range `(-π, π]` with identical sign conventions). -/

/-- Embedding of `math.atan2`. -/
noncomputable def atan2 (y x : ℝ) : ℝ := Complex.arg ⟨x, y⟩

/-- Embedding of `math.radians`. -/
noncomputable def radians (x : ℝ) : ℝ := x * (Real.pi / 180)

/-- The `a`-term of the haversine formula (src/app.py:352). -/
noncomputable def havA (lat1 lon1 lat2 lon2 : ℝ) : ℝ :=
  Real.sin (radians (lat2 - lat1) / 2) ^ 2 +
    Real.cos (radians lat1) * Real.cos (radians lat2) *
      Real.sin (radians (lon2 - lon1) / 2) ^ 2

/-- Embedding of `haversine_km` (src/app.py:346-354): great-circle distance with Earth
radius 6371.0088 km. -/
noncomputable def haversine_km (lat1 lon1 lat2 lon2 : ℝ) : ℝ :=
  let a := havA lat1 lon1 lat2 lon2
  let c := 2 * atan2 (Real.sqrt a) (Real.sqrt (1 - a))
  6371.0088 * c

/-- Embedding of `extract_latlon_from_item` (src/app.py:229-252): coordinates nested
under a structured `arbeitsort`, else top-level `koordinaten`; `none` when
either component is missing or non-numeric. -/
def extract_latlon (it : Item) : Option (ℝ × ℝ) :=
  let nested : Option (ℝ × ℝ) :=
    match it.arbeitsort with
    | some (.struct _ _ _ (some c)) =>
      match c.lat, c.lon with
      | some la, some lo => some (la, lo)
      | _, _ => none
    | _ => none
  match nested with
  | some p => some p
  | none =>
    match it.koordinaten with
    | some c =>
      match c.lat, c.lon with
      | some la, some lo => some (la, lo)
      | _, _ => none
    | none => none

/-- Embedding of `distance_from_home_km` (src/app.py:357-361). -/
noncomputable def distance_from_home_km (it : Item) (home_lat home_lon : ℝ) :
    Option ℝ :=
  match extract_latlon it with
  | none => none
  | some ll => some (haversine_km home_lat home_lon ll.1 ll.2)

/-! ### The ranking sort key (src/app.py:830-843) -/

/-- The high-priority-organisation rank: `-1` for a record whose company
matches a `priority = "high"` directory entry, else `0`. -/
def priority_rank (it : Item) : Int :=
  match match_target_org (item_company it) with
  | some org => if org.priority = some "high" then -1 else 0
  | none => 0

/-- The distance component of the sort key: the home distance, or the
sentinel `999999.0` for a record without coordinates. -/
noncomputable def dist_rank (home_lat home_lon : ℝ) (it : Item) : ℝ :=
  match distance_from_home_km it home_lat home_lon with
  | some d => d
  | none => 999999.0

/-- The newness component of the sort key: `0` when the record's `_key`
annotation is in `new_keys`, else `1`. -/
def is_new_rank (nk : Finset String) (it : Item) : Nat :=
  match it.keyAnn with
  | some k => if k ∈ nk then 0 else 1
  | none => 1

/-- The lexicographic sort-key type of the ranking. -/
abbrev RankKey : Type := Int ×ₗ (ℝ ×ₗ (ℕ ×ₗ (Int ×ₗ String)))

/-- Embedding of `sort_key` (src/app.py:830-841): priority rank, then distance, then
newness, then negated relevance score, then lower-cased title. -/
noncomputable def sort_key (home_lat home_lon : ℝ) (nk : Finset String)
    (focus lead neg : List String) (bonus : Int) (it : Item) : RankKey :=
  toLex (priority_rank it,
    toLex (dist_rank home_lat home_lon it,
      toLex (is_new_rank nk it,
        toLex (-(relevance_score focus lead neg it bonus),
          pyLower (item_title it)))))

/-- The ordering realised by `sorted(items_now, key=sort_key)`. -/
noncomputable def rankLE (home_lat home_lon : ℝ) (nk : Finset String)
    (focus lead neg : List String) (bonus : Int) (a b : Item) : Prop :=
  sort_key home_lat home_lon nk focus lead neg bonus a ≤
    sort_key home_lat home_lon nk focus lead neg bonus b

/-- Boolean form of `rankLE` (classically decidable, as the comparison is
on real numbers). -/
noncomputable def rankLEb (home_lat home_lon : ℝ) (nk : Finset String)
    (focus lead neg : List String) (bonus : Int) (a b : Item) : Bool :=
  @decide (rankLE home_lat home_lon nk focus lead neg bonus a b)
    (Classical.propDecidable _)

/-- Embedding of `items_sorted = sorted(items_now, key=sort_key)` (src/app.py:843). -/
noncomputable def items_sorted (home_lat home_lon : ℝ) (nk : Finset String)
    (focus lead neg : List String) (bonus : Int) (l : List Item) : List Item :=
  l.mergeSort (rankLEb home_lat home_lon nk focus lead neg bonus)

/-! ### The search call (src/app.py:282-326)

`fetch_search` performs one HTTP request.  The outside world's behaviour is
an input of the embedding: either the request raised an exception
(`HttpResult.exc`, carrying the exception's type name and message), or it
returned a response with a status code, a text body, and — when the body is
valid JSON — its parsed form. -/

/-- The parsed JSON body of a search response, restricted to the fields
`extract_items` reads; `none` models a missing key or a non-list value. -/
structure SearchData where
  stellenangebote : Option (List Item) := none
  embeddedJobs : Option (List Item) := none
  jobs : Option (List Item) := none

/-- Embedding of `extract_items` (src/app.py:176-184). -/
def extract_items (d : SearchData) : List Item :=
  match d.stellenangebote with
  | some l => l
  | none =>
    match d.embeddedJobs with
    | some l => l
    | none =>
      match d.jobs with
      | some l => l
      | none => []

/-- The observable outcome of the `requests.get` call inside
`fetch_search`. -/
inductive HttpResult where
  | exc (excType excMsg : String)
  | ok (status : Nat) (body : String) (json : Option SearchData)

/-- Embedding of `fetch_search` (src/app.py:307-326), as a function of the HTTP
outcome: transport errors, non-200 statuses and non-JSON bodies all yield
`([], some message)`; only a 200 JSON response yields items and no error. -/
def fetch_search (r : HttpResult) : List Item × Option String :=
  match r with
  | .exc ty msg => ([], some ("Request-Fehler: " ++ ty ++ ": " ++ msg))
  | .ok status body j =>
    if status ≠ 200 then
      ([], some ("Suche HTTP " ++ toString status ++ ": " ++ pySlice body 400))
    else
      match j with
      | none => ([], some "Suche: Antwort war kein gültiges JSON.")
      | some d => (extract_items d, none)

/-! ### String lemmas -/

theorem isWhitespace_lowerChar (c : Char) :
    (lowerChar c).isWhitespace = c.isWhitespace := by
  unfold lowerChar
  split <;> rfl

theorem pyLower_append (a b : String) :
    pyLower (a ++ b) = pyLower a ++ pyLower b := by
  apply String.ext
  simp [pyLower, String.data_append]

theorem pyStrip_pyLower (s : String) :
    pyStrip (pyLower s) = pyLower (pyStrip s) := by
  apply String.ext
  have hws : (Char.isWhitespace ∘ lowerChar) = Char.isWhitespace := by
    funext c; exact isWhitespace_lowerChar c
  simp [pyStrip, pyLower, stripCL, List.dropWhile_map, hws, ← List.map_reverse]

/-! ### C1: identity keys -/

/-- A record whose `refnr` field holds the non-empty value `" 123 "`. -/
def itC1 : Item := { refnr := some " 123 " }

/-- C1 (counterexample): the claim says the key is `"ba:"` followed by the
provider-supplied reference value whenever a reference field variant holds
a non-empty value.  The record `itC1` carries the non-empty reference value
`" 123 "`, yet its key is `"ba:123"` — the code strips the value first —
and not `"ba:" ++ " 123 "`. -/
theorem C1_identity_key_cex :
    itC1.refnr = some " 123 " ∧ " 123 " ≠ "" ∧
      item_key itC1 = "ba:123" ∧ item_key itC1 ≠ "ba:" ++ " 123 " := by
  refine ⟨rfl, by decide, by decide, by decide⟩

/-- C1 (amended): the key is `"ba:" ++ item_id_raw it` — the *stripped*
first truthy reference-field variant — whenever that stripped value is
non-empty, and otherwise `"hx:"` followed by the first sixteen hex
characters of the SHA-1 of the stripped lower-cased
`title|company|location` string.  Consequently records with equal non-empty
stripped reference values share a key, and records with no usable reference
value and identical lower-cased title, company and location share a key. -/
theorem C1_identity_key (it : Item) :
    (item_id_raw it ≠ "" → item_key it = "ba:" ++ item_id_raw it) ∧
    (item_id_raw it = "" → item_key it = "hx:" ++ pySlice (sha1Hex (pyLower
      (pyStrip (item_title it ++ "|" ++ item_company it ++ "|" ++
        pretty_location it)))) 16) ∧
    (∀ b : Item, item_id_raw it = item_id_raw b → item_id_raw it ≠ "" →
      item_key it = item_key b) ∧
    (∀ b : Item, item_id_raw it = "" → item_id_raw b = "" →
      pyLower (item_title it) = pyLower (item_title b) →
      pyLower (item_company it) = pyLower (item_company b) →
      pyLower (pretty_location it) = pyLower (pretty_location b) →
      item_key it = item_key b) := by
  have hba : ∀ a : Item, item_id_raw a ≠ "" →
      item_key a = "ba:" ++ item_id_raw a := by
    intro a ha
    unfold item_key
    simp [ha]
  have hhx : ∀ a : Item, item_id_raw a = "" →
      item_key a = "hx:" ++ pySlice (sha1Hex (pyLower (pyStrip
        (item_title a ++ "|" ++ item_company a ++ "|" ++
          pretty_location a)))) 16 := by
    intro a ha
    unfold item_key
    simp [ha]
  refine ⟨hba it, hhx it, ?_, ?_⟩
  · intro b hab hne
    rw [hba it hne, hba b (hab ▸ hne), hab]
  · intro b hit hb ht hc hl
    rw [hhx it hit, hhx b hb]
    have hlow : pyLower (item_title it ++ "|" ++ item_company it ++ "|" ++
        pretty_location it) = pyLower (item_title b ++ "|" ++
        item_company b ++ "|" ++ pretty_location b) := by
      simp only [pyLower_append, ht, hc, hl]
    rw [← pyStrip_pyLower, ← pyStrip_pyLower, hlow]

/-- C1 (witness): two records carrying the stripped reference value `"123"`
under different field-name variants share the key; two records with no
reference value and identical lower-cased content share the key. -/
theorem C1_identity_key_w :
    item_key { refnr := some "123" } = item_key { hashID := some " 123 " } ∧
    item_key ({ titel := some "ABC" } : Item) =
      item_key ({ titel := some "abc" } : Item) := by
  constructor
  · exact (C1_identity_key { refnr := some "123" }).2.2.1
      { hashID := some " 123 " } (by decide) (by decide)
  · exact (C1_identity_key { titel := some "ABC" }).2.2.2
      { titel := some "abc" } (by decide) (by decide) (by decide) (by decide)
      (by decide)

/-! ### C2: deduplication -/

theorem item_key_withKey (it : Item) (k : String) :
    item_key (withKey it k) = item_key it := rfl

/-- The `seen` accumulator of the dedup loop only matters as a set. -/
theorem dedup_go_congr (seen₁ seen₂ : List String)
    (h : ∀ s, s ∈ seen₁ ↔ s ∈ seen₂) (l : List Item) :
    dedup_go seen₁ l = dedup_go seen₂ l := by
  induction l generalizing seen₁ seen₂ with
  | nil => rfl
  | cons it rest ih =>
    simp only [dedup_go]
    by_cases hk : item_key it ∈ seen₁
    · rw [if_pos hk, if_pos ((h _).mp hk), ih seen₁ seen₂ h]
    · rw [if_neg hk, if_neg (fun hc => hk ((h _).mpr hc))]
      have : ∀ s, s ∈ item_key it :: seen₁ ↔ s ∈ item_key it :: seen₂ := by
        intro s; simp [h s]
      rw [ih _ _ this]

/-- Pushing one seen key into a filter on the remaining input. -/
theorem dedup_go_cons (k : String) (seen : List String) (l : List Item) :
    dedup_go (k :: seen) l =
      dedup_go seen (l.filter (fun x => item_key x ≠ k)) := by
  induction l generalizing seen k with
  | nil => rfl
  | cons it rest ih =>
    by_cases hk : item_key it = k
    · have : (it :: rest).filter (fun x => item_key x ≠ k) =
          rest.filter (fun x => item_key x ≠ k) := by
        simp [List.filter_cons, hk]
      rw [this, ← ih k seen]
      simp [dedup_go, hk]
    · have hcons : (it :: rest).filter (fun x => item_key x ≠ k) =
          it :: rest.filter (fun x => item_key x ≠ k) := by
        simp [List.filter_cons, hk]
      by_cases hs : item_key it ∈ seen
      · rw [hcons]
        simp only [dedup_go, if_pos (show item_key it ∈ k :: seen by
          simp [hs]), if_pos hs]
        exact ih k seen
      · have hns : item_key it ∉ k :: seen := by simp [hk, hs]
        rw [hcons]
        simp only [dedup_go, if_neg hns, if_neg hs]
        refine congrArg _ ?_
        rw [dedup_go_congr (item_key it :: k :: seen)
          (k :: item_key it :: seen) (by intro s; constructor <;>
            (intro h; simp at h; simp [h]; tauto)),
          ih k (item_key it :: seen)]

/-- The structural form of the dedup loop: keep the head, drop every later
record with the same key. -/
def dedupS : List Item → List Item
  | [] => []
  | it :: rest =>
    withKey it (item_key it) ::
      dedupS (rest.filter (fun x => item_key x ≠ item_key it))
  termination_by l => l.length
  decreasing_by
    simp only [List.length_cons]
    exact Nat.lt_succ_of_le (List.length_filter_le _ _)

theorem dedup_eq_dedupS (l : List Item) : dedup l = dedupS l := by
  induction l using dedupS.induct with
  | case1 => rw [dedupS]; rfl
  | case2 it rest ih =>
    rw [dedupS]
    show dedup_go [] (it :: rest) = _
    simp only [dedup_go, if_neg (List.not_mem_nil (item_key it))]
    rw [dedup_go_cons (item_key it) [] rest]
    exact congrArg _ ih

/-- Key-level image of the filter used by `dedupS`. -/
theorem map_key_filter (l : List Item) (k : String) :
    (l.filter (fun x => item_key x ≠ k)).map item_key =
      (l.map item_key).filter (fun s => s ≠ k) := by
  induction l with
  | nil => rfl
  | cons it rest ih =>
    simp only [ne_eq, decide_not] at ih ⊢
    by_cases hk : item_key it = k <;> simp [List.filter_cons, hk, ih]

/-- First-occurrence deduplication on key lists. -/
def firstDedup : List String → List String
  | [] => []
  | k :: ks => k :: firstDedup (ks.filter (fun s => s ≠ k))
  termination_by l => l.length
  decreasing_by
    simp only [List.length_cons]
    exact Nat.lt_succ_of_le (List.length_filter_le _ _)

theorem mem_firstDedup (a : String) (ks : List String) :
    a ∈ firstDedup ks ↔ a ∈ ks := by
  induction ks using firstDedup.induct with
  | case1 => simp [firstDedup]
  | case2 k rest ih =>
    rw [firstDedup]
    simp only [ne_eq, decide_not] at ih ⊢
    by_cases ha : a = k
    · simp [ha]
    · simp [ha, ih, List.mem_filter]

theorem nodup_firstDedup (ks : List String) : (firstDedup ks).Nodup := by
  induction ks using firstDedup.induct with
  | case1 => simp [firstDedup]
  | case2 k rest ih =>
    rw [firstDedup]
    refine List.nodup_cons.mpr ⟨?_, ih⟩
    rw [mem_firstDedup]
    simp [List.mem_filter]

theorem map_key_dedupS (l : List Item) :
    (dedupS l).map item_key = firstDedup (l.map item_key) := by
  induction l using dedupS.induct with
  | case1 => rw [dedupS]; simp only [List.map_nil]; rw [firstDedup]
  | case2 it rest ih =>
    rw [dedupS]
    simp only [List.map_cons]
    rw [firstDedup]
    simp only [item_key_withKey, List.cons.injEq, true_and]
    rw [ih, map_key_filter]

theorem toFinset_firstDedup (ks : List String) :
    (firstDedup ks).toFinset = ks.toFinset := by
  apply Finset.ext
  intro a
  simp [List.mem_toFinset, mem_firstDedup]

/-- A `find?` by a key different from `k` passes through the filter that
removes the records keyed `k`. -/
theorem find?_filter_ne (l : List Item) (k k' : String) (hkk : k' ≠ k) :
    (l.filter (fun x => item_key x ≠ k)).find?
        (fun x => item_key x == k') =
      l.find? (fun x => item_key x == k') := by
  induction l with
  | nil => rfl
  | cons it rest ih =>
    rw [List.filter_cons]
    by_cases hk : item_key it = k
    · rw [if_neg (by simp [hk]), ih, List.find?_cons]
      have hne : (item_key it == k') = false :=
        beq_eq_false_iff_ne.mpr (fun h => hkk (h.symm.trans hk))
      rw [hne]
    · rw [if_pos (by simp [hk]), List.find?_cons, List.find?_cons]
      cases hb : (item_key it == k') with
      | true => simp only [hb]
      | false => simp only [hb]; exact ih

theorem find?_dedupS (l : List Item) :
    ∀ k : String, (dedupS l).find? (fun x => item_key x == k) =
      (l.find? (fun x => item_key x == k)).map
        (fun it => withKey it (item_key it)) := by
  induction l using dedupS.induct with
  | case1 => intro k; rw [dedupS]; rfl
  | case2 it rest ih =>
    intro k
    rw [dedupS]
    by_cases hk : item_key it = k
    · simp [List.find?_cons, item_key_withKey, hk]
    · have hne : (item_key it == k) = false := beq_eq_false_iff_ne.mpr hk
      simp only [List.find?_cons, item_key_withKey, hne]
      rw [ih k, find?_filter_ne rest (item_key it) k (fun h => hk h.symm)]

/-- C2: the dedup step keeps, for each of the `K` distinct identity keys of
the input, exactly the first input record bearing that key (annotated with
the key); in particular its output has exactly `K` records and pairwise
distinct keys. -/
theorem C2_dedup_first_per_key (l : List Item) :
    ((dedup l).map item_key).Nodup ∧
    (dedup l).length = ((l.map item_key).toFinset).card ∧
    (∀ k : String, (dedup l).find? (fun x => item_key x == k) =
      (l.find? (fun x => item_key x == k)).map
        (fun it => withKey it (item_key it))) := by
  rw [dedup_eq_dedupS]
  refine ⟨?_, ?_, find?_dedupS l⟩
  · rw [map_key_dedupS]; exact nodup_firstDedup _
  · calc (dedupS l).length = ((dedupS l).map item_key).length := by
          rw [List.length_map]
      _ = (firstDedup (l.map item_key)).length := by rw [map_key_dedupS]
      _ = (firstDedup (l.map item_key)).toFinset.card :=
          (List.toFinset_card_of_nodup (nodup_firstDedup _)).symm
      _ = ((l.map item_key).toFinset).card := by rw [toFinset_firstDedup]

/-! ### C3 / C10: scoring -/

/-- One keyword loop over a list without empty terms contributes `delta`
per matching term and one explanation entry per matching term. -/
theorem passKw_eq (pre : String) (delta : Int) (text : String)
    (ks : List String) (h : "" ∉ ks) :
    passKw pre delta text ks =
      (delta * ((ks.filter (fun k => strIn k text)).length : Int),
       (ks.filter (fun k => strIn k text)).map (fun k => pre ++ k)) := by
  induction ks with
  | nil => simp [passKw]
  | cons k rest ih =>
    have hk : k ≠ "" := fun he => h (he ▸ List.mem_cons_self k rest)
    have hrest : "" ∉ rest := fun he => h (List.mem_cons_of_mem k he)
    rw [List.filter_cons]
    by_cases hm : strIn k text
    · rw [if_pos (by simp [hm])]
      simp only [passKw, ih hrest]
      rw [if_pos (by simp [hk, hm])]
      refine Prod.ext ?_ ?_
      · show delta + _ = _
        simp only [List.length_cons]
        push_cast
        ring
      · simp
    · rw [if_neg (by simp [hm])]
      simp only [passKw, ih hrest]
      rw [if_neg (by simp [hk, hm])]

/-- A loop over terms none of which match contributes nothing. -/
theorem passKw_none (pre : String) (delta : Int) (text : String)
    (ks : List String) (h : ∀ k ∈ ks, strIn k text = false) :
    passKw pre delta text ks = (0, []) := by
  induction ks with
  | nil => rfl
  | cons k rest ih =>
    have hk := h k (List.mem_cons_self k rest)
    have hrest := ih (fun k hm => h k (List.mem_cons_of_mem _ hm))
    simp [passKw, hk, hrest]

/-- C3: with the pipeline's keyword lists (which contain no empty terms),
the score is `+10` per matching focus term, `+6` per matching leadership
term, `−12` per matching negative term, plus the homeoffice bonus exactly
once when the record is a homeoffice result and the bonus is positive; the
explanation is never empty, and is the single placeholder entry when
nothing matched at all. -/
theorem C3_score_breakdown (focus lead neg : List String) (it : Item)
    (bonus : Int) (hf : "" ∉ focus) (hl : "" ∉ lead) (hn : "" ∉ neg) :
    (score_breakdown focus lead neg it bonus).1 =
      10 * ((focus.filter (fun k => strIn k (haystack it))).length : Int) +
      6 * ((lead.filter (fun k => strIn k (haystack it))).length : Int) -
      12 * ((neg.filter (fun k => strIn k (haystack it))).length : Int) +
      (if is_homeoffice_item it = true ∧ 0 < bonus then bonus else 0) ∧
    (score_breakdown focus lead neg it bonus).2 ≠ [] ∧
    ((∀ k ∈ focus, strIn k (haystack it) = false) →
     (∀ k ∈ lead, strIn k (haystack it) = false) →
     (∀ k ∈ neg, strIn k (haystack it) = false) →
     ¬(is_homeoffice_item it = true ∧ 0 < bonus) →
     (score_breakdown focus lead neg it bonus).2 =
       ["(keine Keyword-Treffer)"]) := by
  refine ⟨?_, ?_, ?_⟩
  · simp only [score_breakdown, passKw_eq _ _ _ _ hf, passKw_eq _ _ _ _ hl,
      passKw_eq _ _ _ _ hn]
    by_cases hho : is_homeoffice_item it = true ∧ 0 < bonus
    · rw [if_pos (by simp [hho.1, hho.2])]
      simp only [if_pos hho]
      ring
    · rw [if_neg (by
        intro hc
        rcases (Bool.and_eq_true _ _).mp hc with ⟨h1, h2⟩
        exact hho ⟨h1, by simpa using h2⟩)]
      simp only [if_neg hho]
      ring
  · simp only [score_breakdown]
    split <;> split <;> simp_all
  · intro h1 h2 h3 h4
    have hfalse : (is_homeoffice_item it && decide (bonus > 0)) = false := by
      cases hA : is_homeoffice_item it
      · simp
      · have : ¬(0 < bonus) := fun hb => h4 ⟨hA, hb⟩
        simp [this]
    simp [score_breakdown, passKw_none _ _ _ _ h1, passKw_none _ _ _ _ h2,
      passKw_none _ _ _ _ h3, hfalse]

/-- C3 (witness): spec scenario B — focus `dsc`, leadership `teamleiter`,
negative `assistenz`, record titled
"Teamleiter DSC-Labor, Assistenz der Geschäftsführung" scores
`10 + 6 − 12 = 4`. -/
theorem C3_score_breakdown_w :
    (score_breakdown ["dsc"] ["teamleiter"] ["assistenz"]
      { titel := some "Teamleiter DSC-Labor, Assistenz der Geschäftsführung" }
      0).1 = 4 := by
  rw [(C3_score_breakdown ["dsc"] ["teamleiter"] ["assistenz"]
    { titel := some "Teamleiter DSC-Labor, Assistenz der Geschäftsführung" }
    0 (by decide) (by decide) (by decide)).1]
  decide

/-- One keyword loop ignores empty terms entirely. -/
theorem passKw_filter_empty (pre : String) (delta : Int) (text : String)
    (ks : List String) :
    passKw pre delta text (ks.filter (fun k => k ≠ "")) =
      passKw pre delta text ks := by
  induction ks with
  | nil => rfl
  | cons k rest ih =>
    simp only [ne_eq, decide_not] at ih
    by_cases hk : k = ""
    · simp [List.filter_cons, hk, passKw, ih]
    · by_cases hm : strIn k text <;>
        simp [List.filter_cons, hk, passKw, hm, ih]

/-- C10: an empty-string keyword contributes nothing to either the score or
the explanation — removing all empty terms from the three lists leaves
`score_breakdown` unchanged — and `parse_keywords` never produces an empty
term in the first place. -/
theorem C10_empty_terms_ignored (focus lead neg : List String) (it : Item)
    (bonus : Int) :
    score_breakdown (focus.filter (fun k => k ≠ ""))
        (lead.filter (fun k => k ≠ "")) (neg.filter (fun k => k ≠ "")) it
        bonus = score_breakdown focus lead neg it bonus ∧
    (∀ t : String, "" ∉ parse_keywords t) := by
  constructor
  · simp only [score_breakdown, passKw_filter_empty]
  · intro t
    simp [parse_keywords, List.mem_filter]

/-! ### C4: snapshot diff -/

/-- C4: the new-key set is the plain set difference of the current identity
keys and the snapshot's keys; it is empty when the current keys are a
subset of the snapshot keys, and is the full current key set when the
snapshot is empty. -/
theorem C4_new_keys_set_difference (now prev : List Item) :
    new_keys now prev = keySet now \ keySet prev ∧
    (keySet now ⊆ keySet prev → new_keys now prev = ∅) ∧
    (prev = [] → new_keys now prev = keySet now) := by
  refine ⟨rfl, ?_, ?_⟩
  · intro h
    exact Finset.sdiff_eq_empty_iff_subset.mpr h
  · intro h
    subst h
    simp [new_keys, keySet]

/-- C4 (witness): with snapshot keys `{ba:1, ba:2}` and current keys
`{ba:2}` the diff is empty, and against an empty snapshot the current key
set survives whole (spec scenario D's boundary cases). -/
theorem C4_new_keys_set_difference_w :
    new_keys [{ keyAnn := some "ba:2" }]
      [{ keyAnn := some "ba:1" }, { keyAnn := some "ba:2" }] = ∅ ∧
    new_keys [{ keyAnn := some "ba:2" }] [] =
      keySet [{ keyAnn := some "ba:2" }] := by
  constructor
  · exact (C4_new_keys_set_difference _ _).2.1 (by decide)
  · exact (C4_new_keys_set_difference _ _).2.2 rfl

/-! ### C6: target-organisation matching -/

/-- The scan of `match_target_org` is `find?` with the any-term-matches
test. -/
theorem find_org_eq_find? (orgs : List Org) (c : String) :
    find_org orgs c =
      orgs.find? (fun o => o.matchTerms.any (fun m => strIn m c)) := by
  induction orgs with
  | nil => rfl
  | cons o os ih =>
    rw [find_org, List.find?_cons]
    cases hb : o.matchTerms.any (fun m => strIn m c) with
    | true => simp [hb]
    | false => simp [hb, ih]

/-- C6: the matcher lowercases the company string, returns `none` for
blank/whitespace-only input, and otherwise returns the first directory
entry (in list order) one of whose match terms is a substring of the
lowercased name; in particular, with `Foo (match "foo")` listed before
`Foobar (match "foobar")`, the company `"Foobar GmbH"` matches `Foo`. -/
theorem C6_match_target_org (c : String) :
    (pyStrip (pyLower c) = "" → match_target_org c = none) ∧
    (pyStrip (pyLower c) ≠ "" → match_target_org c =
      TARGET_ORGS.find?
        (fun o => o.matchTerms.any (fun m => strIn m (pyLower c)))) ∧
    match_target_org_in
        [⟨"Foo", ["foo"], "https://example.test/foo", none⟩,
         ⟨"Foobar", ["foobar"], "https://example.test/foobar", none⟩]
        "Foobar GmbH" =
      some ⟨"Foo", ["foo"], "https://example.test/foo", none⟩ := by
  refine ⟨?_, ?_, by decide⟩
  · intro h
    simp [match_target_org, match_target_org_in, h]
  · intro h
    simp [match_target_org, match_target_org_in, h, find_org_eq_find?]

/-- C6 (witness): the empty company matches nothing; `"BASF SE"` matches
the BASF directory entry. -/
theorem C6_match_target_org_w :
    match_target_org "" = none ∧
    match_target_org "BASF SE" =
      some ⟨"BASF", ["basf"], "https://www.basf.com/global/de/careers",
        none⟩ := by
  constructor
  · exact (C6_match_target_org "").1 (by decide)
  · rw [(C6_match_target_org "BASF SE").2.1 (by decide)]
    decide

/-! ### C7: haversine distance -/

theorem havA_self (lat lon : ℝ) : havA lat lon lat lon = 0 := by
  simp [havA, radians]

theorem havA_symm (lat1 lon1 lat2 lon2 : ℝ) :
    havA lat1 lon1 lat2 lon2 = havA lat2 lon2 lat1 lon1 := by
  have h : ∀ x y : ℝ,
      Real.sin (radians (x - y) / 2) ^ 2 =
        Real.sin (radians (y - x) / 2) ^ 2 := by
    intro x y
    have hxy : radians (x - y) / 2 = -(radians (y - x) / 2) := by
      unfold radians; ring
    rw [hxy, Real.sin_neg]
    ring
  unfold havA
  rw [h lat2 lat1, h lon2 lon1]
  ring

/-- The haversine distance is bounded by the circumference bound
`6371.0088 * 2π`, in particular strictly below the sentinel `999999`. -/
theorem haversine_km_lt (lat1 lon1 lat2 lon2 : ℝ) :
    haversine_km lat1 lon1 lat2 lon2 < 999999 := by
  unfold haversine_km atan2
  have harg := Complex.arg_le_pi
    (⟨Real.sqrt (1 - havA lat1 lon1 lat2 lon2),
      Real.sqrt (havA lat1 lon1 lat2 lon2)⟩ : ℂ)
  have hpi := Real.pi_lt_d2
  nlinarith [harg, hpi, Real.pi_pos]

/-- C7: the distance function is the haversine great-circle formula with
Earth radius 6371.0088 km; it vanishes on identical points, is symmetric in
its two points, and a record without coordinates has no distance. -/
theorem C7_haversine (lat lon lat2 lon2 home_lat home_lon : ℝ) (it : Item) :
    haversine_km lat lon lat lon = 0 ∧
    haversine_km lat lon lat2 lon2 = haversine_km lat2 lon2 lat lon ∧
    (extract_latlon it = none →
      distance_from_home_km it home_lat home_lon = none) := by
  refine ⟨?_, ?_, ?_⟩
  · unfold haversine_km atan2
    rw [havA_self]
    have h1 : ((⟨Real.sqrt (1 - 0), Real.sqrt 0⟩ : ℂ)) = 1 := by
      apply Complex.ext <;> simp
    simp only [h1, Complex.arg_one]
    ring
  · unfold haversine_km
    rw [havA_symm]
  · intro h
    simp [distance_from_home_km, h]

/-- C7 (witness): a record with no coordinate fields has no home
distance. -/
theorem C7_haversine_w :
    distance_from_home_km ({} : Item) 51.2861 11.89 = none :=
  (C7_haversine 0 0 0 0 51.2861 11.89 {}).2.2 rfl

/-! ### C8: strict leadership flag -/

/-- A record whose title contains "teamleiter" — and hence "leiter" — only
inside the longer word "Teamleiterin". -/
def itC8 : Item := { titel := some "Teamleiterin Qualität" }

/-- C8 (counterexample): the claim says the strict flag is set only via
whole-word matches of the enumerated leadership titles, never bare
substrings.  `itC8` is flagged although no enumerated term occurs as a
whole word in its text: "teamleiter" matches as a bare substring of
"teamleiterin". -/
theorem C8_strict_leadership_cex :
    looks_leadership_strict itC8 = true ∧
    (["laborleiter", "teamleiter", "gruppenleiter", "abteilungsleiter",
      "bereichsleiter", "head of", "director", "leiter"].all
        (fun t => !(wholeWordIn t (strictText itC8)))) = true := by
  decide

/-- C8 (amended): the strict flag is set exactly when the bare word
"leiter" occurs space-delimited in the padded lowercased
title+short-description, or one of the enumerated terms (the compound
leadership titles, `" head of "`, `"director"`) occurs as a plain
substring; in particular a title containing "leiter" only inside a larger
word that contains no enumerated term — such as "Begleiter" — is not
flagged. -/
theorem C8_strict_leadership (it : Item) :
    (looks_leadership_strict it = true ↔
      (wholeWordIn "leiter" (strictText it) = true ∨
        ∃ t ∈ strict_terms, strIn t (strictText it) = true)) ∧
    looks_leadership_strict { titel := some "Begleiter von Menschen" } =
      false := by
  constructor
  · have hw : (" " ++ "leiter" ++ " " : String) = " leiter " := rfl
    simp [looks_leadership_strict, wholeWordIn, hw, List.any_eq_true]
  · decide

/-! ### C9: search-call error handling -/

/-- C9: every transport failure, non-200 response and non-JSON 200 body
yields no items plus a descriptive message — the transport message embeds
the exception type name, the protocol message embeds the status code and
the body excerpt truncated to 400 characters — while a 200 JSON response
yields the extracted items and no message, so a failure is never reported
as empty-success. -/
theorem C9_fetch_search_errors (ty msg : String) (status : Nat)
    (body : String) (j : Option SearchData) (d : SearchData) :
    (fetch_search (.exc ty msg) =
        ([], some ("Request-Fehler: " ++ ty ++ ": " ++ msg)) ∧
      ∃ pre post : String,
        "Request-Fehler: " ++ ty ++ ": " ++ msg = pre ++ ty ++ post) ∧
    (status ≠ 200 →
      fetch_search (.ok status body j) =
          ([], some ("Suche HTTP " ++ toString status ++ ": " ++
            pySlice body 400)) ∧
        (pySlice body 400).length ≤ 400 ∧
        ∃ pre post : String,
          "Suche HTTP " ++ toString status ++ ": " ++ pySlice body 400 =
            pre ++ toString status ++ post) ∧
    fetch_search (.ok 200 body none) =
      ([], some "Suche: Antwort war kein gültiges JSON.") ∧
    fetch_search (.ok 200 body (some d)) = (extract_items d, none) := by
  refine ⟨⟨rfl, "Request-Fehler: ", ": " ++ msg, ?_⟩, ?_, rfl, rfl⟩
  · simp [String.append_assoc]
  · intro h
    refine ⟨?_, ?_, "Suche HTTP ", ": " ++ pySlice body 400, ?_⟩
    · simp [fetch_search, h]
    · show (List.take 400 body.data).length ≤ 400
      rw [List.length_take]
      exact min_le_left _ _
    · simp [String.append_assoc]

/-- C9 (witness): a 404 response with body `"oops"` is reported as an
error, not as empty-success. -/
theorem C9_fetch_search_errors_w :
    fetch_search (.ok 404 "oops" none) =
      ([], some "Suche HTTP 404: oops") := by
  rw [((C9_fetch_search_errors "x" "y" 404 "oops" none
    ⟨none, none, none⟩).2.1 (by decide)).1]
  exact Prod.ext rfl (by decide)

/-! ### C5: ranking order -/

theorem rankLEb_eq_true (home_lat home_lon : ℝ) (nk : Finset String)
    (focus lead neg : List String) (bonus : Int) (a b : Item) :
    rankLEb home_lat home_lon nk focus lead neg bonus a b = true ↔
      rankLE home_lat home_lon nk focus lead neg bonus a b := by
  simp [rankLEb]

/-- C5: the ranking is a permutation of its input, sorted by the
lexicographic key (high-priority organisations first, then distance
ascending with missing coordinates as the sentinel `999999`, then new
before not-new, then score descending, then lower-cased title ascending);
records without coordinates get exactly the sentinel distance, every
record with coordinates ranks strictly below it, and the ranking is a
deterministic function of its input. -/
theorem C5_ranking (home_lat home_lon : ℝ) (nk : Finset String)
    (focus lead neg : List String) (bonus : Int) (l : List Item) :
    (items_sorted home_lat home_lon nk focus lead neg bonus l).Perm l ∧
    List.Sorted (rankLE home_lat home_lon nk focus lead neg bonus)
      (items_sorted home_lat home_lon nk focus lead neg bonus l) ∧
    (∀ a b : Item, rankLE home_lat home_lon nk focus lead neg bonus a b ↔
      (priority_rank a < priority_rank b ∨
        (priority_rank a = priority_rank b ∧
          (dist_rank home_lat home_lon a < dist_rank home_lat home_lon b ∨
            (dist_rank home_lat home_lon a = dist_rank home_lat home_lon b ∧
              (is_new_rank nk a < is_new_rank nk b ∨
                (is_new_rank nk a = is_new_rank nk b ∧
                  (relevance_score focus lead neg b bonus <
                      relevance_score focus lead neg a bonus ∨
                    (relevance_score focus lead neg a bonus =
                        relevance_score focus lead neg b bonus ∧
                      pyLower (item_title a) ≤
                        pyLower (item_title b)))))))))) ∧
    (∀ b : Item, extract_latlon b = none →
      dist_rank home_lat home_lon b = 999999) ∧
    (∀ (a : Item) (p : ℝ × ℝ), extract_latlon a = some p →
      dist_rank home_lat home_lon a < 999999) ∧
    (∀ l1 l2 : List Item, l1 = l2 →
      items_sorted home_lat home_lon nk focus lead neg bonus l1 =
        items_sorted home_lat home_lon nk focus lead neg bonus l2) := by
  have htrans : ∀ a b c : Item,
      rankLEb home_lat home_lon nk focus lead neg bonus a b = true →
      rankLEb home_lat home_lon nk focus lead neg bonus b c = true →
      rankLEb home_lat home_lon nk focus lead neg bonus a c = true := by
    intro a b c hab hbc
    rw [rankLEb_eq_true] at hab hbc ⊢
    exact le_trans hab hbc
  have htotal : ∀ a b : Item,
      (rankLEb home_lat home_lon nk focus lead neg bonus a b ||
        rankLEb home_lat home_lon nk focus lead neg bonus b a) = true := by
    intro a b
    simp only [Bool.or_eq_true, rankLEb_eq_true]
    exact le_total (sort_key home_lat home_lon nk focus lead neg bonus a)
      (sort_key home_lat home_lon nk focus lead neg bonus b)
  refine ⟨List.mergeSort_perm l _, ?_, ?_, ?_, ?_, ?_⟩
  · exact (List.sorted_mergeSort htrans htotal l).imp
      (fun h => (rankLEb_eq_true _ _ _ _ _ _ _ _ _).mp h)
  · intro a b
    simp only [rankLE, sort_key, Prod.Lex.le_iff, neg_lt_neg_iff, neg_inj]
  · intro b h
    simp only [dist_rank, distance_from_home_km, h]
    norm_num
  · intro a p h
    have hd : dist_rank home_lat home_lon a =
        haversine_km home_lat home_lon p.1 p.2 := by
      simp [dist_rank, distance_from_home_km, h]
    rw [hd]
    exact haversine_km_lt _ _ _ _
  · intro l1 l2 h
    rw [h]

/-- C5 (witness): a record with coordinates ranks strictly below the
sentinel distance assigned to a record without coordinates. -/
theorem C5_ranking_w :
    dist_rank 0 0 { koordinaten := some ⟨some 0, some 0⟩ } <
      dist_rank 0 0 ({} : Item) := by
  have h := C5_ranking 0 0 ∅ [] [] [] 0 []
  have hb := h.2.2.2.1 ({} : Item) rfl
  have ha := h.2.2.2.2.1 { koordinaten := some ⟨some 0, some 0⟩ } (0, 0) rfl
  rw [hb]
  exact ha

end Jobwatch
